import Mathlib

/-!
Shallow embedding of the KrishiLok trust/usefulness scoring engine.

The scoring and ranking logic of the repository lives in the SQL schema,
trigger functions and queries of `DATABASE_SCHEMA_GUIDE.md`:

* table definitions (`users`, `suggestions`, `trust_feedback`,
  `community_posts`, `post_responses`) with their CHECK constraints and the
  unique index `idx_trust_feedback_unique` on `(user_id, suggestion_id)`;
* trigger function `update_suggestion_usefulness`, fired AFTER INSERT on
  `trust_feedback` by `trigger_update_suggestion_usefulness`;
* function `calculate_trust_score(p_user_id)`;
* trigger function `update_post_response_count`, fired AFTER INSERT OR DELETE
  on `post_responses`;
* the ranking queries "Get Suggestions for Disease" and
  "Get Community Posts with Filters".

Tables are embedded as lists of records, SQL `DECIMAL` as `ℚ`, nullable
columns as `Option`, and an INSERT into `trust_feedback` (constraints plus
the AFTER INSERT trigger) as the `Except`-valued operation `recordFeedback`.
-/

namespace KrishiLok

/-- LEAST(GREATEST(x, 0), 100) — the clamp applied to both scores. -/
def clampScore (x : ℚ) : ℚ := min (max x 0) 100

/-- Strict "comes before" for one `ORDER BY key DESC` level, with SQL's
NULLS FIRST default for descending order: `none` sorts before every `some`,
and `some a` sorts before `some b` when `b < a`. -/
def optDescLt {K : Type} [LinearOrder K] : Option K → Option K → Bool
  | none, none => false
  | none, some _ => true
  | some _, none => false
  | some a, some b => decide (b < a)

/-- Three-level `ORDER BY k₁ DESC, k₂ DESC, k₃` comparator: `a` may come
before `b`.  The last level is a total (non-strict) key so that rows equal on
all keys compare `true` both ways, as in SQL where their order is free. -/
def lex3Le {α K1 K2 K3 : Type} [LinearOrder K1] [LinearOrder K2] [LinearOrder K3]
    (f1 : α → Option K1) (f2 : α → Option K2) (f3 : α → K3) (a b : α) : Bool :=
  if f1 a = f1 b then
    if f2 a = f2 b then decide (f3 a ≤ f3 b)
    else optDescLt (f2 a) (f2 b)
  else optDescLt (f1 a) (f1 b)

/-- Does the list start with the given pattern? -/
def startsWithL : List Char → List Char → Bool
  | [], _ => true
  | _ :: _, [] => false
  | a :: as, b :: bs => a == b && startsWithL as bs

/-- Does the list contain the pattern as a contiguous run? -/
def containsL (pat : List Char) : List Char → Bool
  | [] => pat.isEmpty
  | c :: rest => startsWithL pat (c :: rest) || containsL pat rest

/-- `s ILIKE '%' || pat || '%'`: case-insensitive substring containment. -/
def ilikeContains (s pat : String) : Bool :=
  containsL pat.toLower.toList s.toLower.toList

/-- Row of `users`: `trust_score DECIMAL(5,2) DEFAULT 50.0` (clamped by a
CHECK constraint to [0,100]). -/
structure User where
  id : Nat
  trust_score : ℚ
  created_at : Nat
deriving Repr, DecidableEq

/-- Row of `suggestions`: `usefulness_score DECIMAL(5,2)` is nullable with
default 50.0, plus the cached feedback counters. -/
structure Suggestion where
  id : Nat
  disease_name : String
  user_id : Nat
  usefulness_score : Option ℚ
  positive_feedback_count : Nat
  negative_feedback_count : Nat
  created_at : Nat
deriving Repr, DecidableEq

/-- Row of `trust_feedback`: `user_id` is the rater, `farmer_id` the target
user, `score INTEGER CHECK (score >= 1 AND score <= 5)`. -/
structure Feedback where
  suggestion_id : Nat
  user_id : Nat
  farmer_id : Nat
  score : ℤ
deriving Repr, DecidableEq

/-- Row of `community_posts` (the columns the filters, sorts and counter
maintenance touch; `crop_name` is nullable). -/
structure CommunityPost where
  id : Nat
  user_id : Nat
  crop_name : Option String
  tags : List String
  is_resolved : Bool
  accepted_response_id : Option Nat
  view_count : Nat
  response_count : ℤ
  created_at : Nat
deriving Repr, DecidableEq

/-- Row of `post_responses`. -/
structure PostResponse where
  id : Nat
  post_id : Nat
  user_id : Nat
  is_verified : Bool
deriving Repr, DecidableEq

/-- The database state: one list per table. -/
structure DB where
  users : List User
  suggestions : List Suggestion
  trust_feedback : List Feedback
  community_posts : List CommunityPost
  post_responses : List PostResponse
deriving Repr, DecidableEq

/-- All `trust_feedback` rows of one suggestion
(`WHERE suggestion_id = NEW.suggestion_id`). -/
def feedbackFor (db : DB) (sid : Nat) : List Feedback :=
  db.trust_feedback.filter (fun f => decide (f.suggestion_id = sid))

/-- SQL `AVG` over an integer column: `NULL` on the empty bag, otherwise the
exact rational mean. -/
def avgQ (l : List ℤ) : Option ℚ :=
  if l.isEmpty then none else some ((l.sum : ℚ) / (l.length : ℚ))

/-- Trigger function `update_suggestion_usefulness` (body, run after a row
for suggestion `sid` was inserted): recompute
`50.0 + (AVG(score) - 3) * 20` over the full feedback history of `sid`,
clamp it, and re-count `positive_feedback_count` (`score >= 4`) and
`negative_feedback_count` (`score <= 2`). -/
def update_suggestion_usefulness (db : DB) (sid : Nat) : DB :=
  let scores := (feedbackFor db sid).map Feedback.score
  let v_usefulness : Option ℚ := (avgQ scores).map (fun a => 50 + (a - 3) * 20)
  let pos := (feedbackFor db sid).countP (fun f => decide (4 ≤ f.score))
  let neg := (feedbackFor db sid).countP (fun f => decide (f.score ≤ 2))
  { db with suggestions := db.suggestions.map (fun s =>
      if s.id = sid then
        { s with usefulness_score := v_usefulness.map clampScore,
                 positive_feedback_count := pos,
                 negative_feedback_count := neg }
      else s) }

/-- Error outcomes of a `trust_feedback` INSERT: the CHECK constraint on
`score`, the unique index `idx_trust_feedback_unique (user_id, suggestion_id)`,
and the foreign keys on `suggestion_id`, `user_id` and `farmer_id`. -/
inductive FeedbackError where
  | InvalidScore
  | DuplicateFeedback
  | SuggestionNotFound
  | UserNotFound
deriving Repr, DecidableEq

/-- `recordFeedback`: an INSERT into `trust_feedback` under the table's
constraints, followed by the AFTER INSERT trigger
`trigger_update_suggestion_usefulness`.  On any constraint violation the
insert fails and the trigger does not fire, so the state is unchanged. -/
def recordFeedback (db : DB) (raterId suggestionId farmerId : Nat) (score : ℤ) :
    Except FeedbackError DB :=
  if ¬ (1 ≤ score ∧ score ≤ 5) then .error .InvalidScore
  else if db.trust_feedback.any
      (fun f => decide (f.user_id = raterId) && decide (f.suggestion_id = suggestionId)) then
    .error .DuplicateFeedback
  else if ¬ db.suggestions.any (fun s => decide (s.id = suggestionId)) then
    .error .SuggestionNotFound
  else if ¬ (db.users.any (fun u => decide (u.id = raterId)) ∧
             db.users.any (fun u => decide (u.id = farmerId))) then
    .error .UserNotFound
  else
    let db1 : DB :=
      { db with trust_feedback :=
          db.trust_feedback ++ [⟨suggestionId, raterId, farmerId, score⟩] }
    .ok (update_suggestion_usefulness db1 suggestionId)

/-- One attempted feedback submission. -/
structure FbCmd where
  raterId : Nat
  suggestionId : Nat
  farmerId : Nat
  score : ℤ
deriving Repr, DecidableEq

/-- State after one attempted submission: a rejected INSERT leaves the
database untouched. -/
def fbStep (db : DB) (c : FbCmd) : DB :=
  match recordFeedback db c.raterId c.suggestionId c.farmerId c.score with
  | .ok db1 => db1
  | .error _ => db

/-- State after a whole sequence of attempted submissions. -/
def fbRun (db : DB) (cs : List FbCmd) : DB := cs.foldl fbStep db

/-- Function `calculate_trust_score(p_user_id)`:
`clamp(50 + accepted*10 + COALESCE(avg_feedback, 0)*5 + verified*3, 0, 100)`
with every aggregate read from current state. -/
def calculate_trust_score (db : DB) (p_user_id : Nat) : ℚ :=
  let accepted_responses : Nat := db.community_posts.countP (fun cp =>
    match cp.accepted_response_id with
    | some rid => db.post_responses.any
        (fun pr => decide (pr.id = rid) && decide (pr.user_id = p_user_id))
    | none => false)
  let avg_feedback : Option ℚ :=
    avgQ (((db.trust_feedback.filter (fun f => decide (f.farmer_id = p_user_id))).map
      Feedback.score))
  let verified_responses : Nat := db.post_responses.countP
    (fun pr => decide (pr.user_id = p_user_id) && pr.is_verified)
  let final_score : ℚ := 50 + (accepted_responses : ℚ) * 10
    + (avg_feedback.getD 0) * 5 + (verified_responses : ℚ) * 3
  clampScore final_score

/-- INSERT on `post_responses` plus the AFTER INSERT leg of
`update_post_response_count`: `response_count + 1` on the row's post. -/
def insertResponse (db : DB) (r : PostResponse) : DB :=
  { db with
      post_responses := db.post_responses ++ [r],
      community_posts := db.community_posts.map (fun cp =>
        if cp.id = r.post_id then { cp with response_count := cp.response_count + 1 }
        else cp) }

/-- DELETE ... WHERE id = rid on `post_responses` plus the AFTER DELETE leg of
`update_post_response_count`, fired once per deleted row:
`response_count - 1` on each deleted row's post. -/
def deleteResponse (db : DB) (rid : Nat) : DB :=
  let deleted := db.post_responses.filter (fun pr => decide (pr.id = rid))
  { db with
      post_responses := db.post_responses.filter (fun pr => !decide (pr.id = rid)),
      community_posts := db.community_posts.map (fun cp =>
        { cp with response_count :=
            cp.response_count - (deleted.countP (fun pr => decide (pr.post_id = cp.id)) : ℤ) }) }

/-- A write event on `post_responses`. -/
inductive RespEvent where
  | ins (r : PostResponse)
  | del (rid : Nat)
deriving Repr

/-- Apply one `post_responses` write (with its trigger). -/
def applyRespEvent (db : DB) : RespEvent → DB
  | .ins r => insertResponse db r
  | .del rid => deleteResponse db rid

/-- Apply a sequence of `post_responses` writes. -/
def applyRespEvents (db : DB) (evs : List RespEvent) : DB :=
  evs.foldl applyRespEvent db

/-- Cached `response_count` of every post equals the live count of its
responses. -/
def responseCountConsistent (db : DB) : Prop :=
  ∀ cp ∈ db.community_posts,
    cp.response_count = (db.post_responses.countP (fun pr => decide (pr.post_id = cp.id)) : ℤ)

/-- Every stored (non-NULL) `usefulness_score` and every stored
`trust_score` lies within [0, 100] — the ranges enforced by the CHECK
constraints of `suggestions` and `users`. -/
def scoresInRange (db : DB) : Prop :=
  (∀ s ∈ db.suggestions, ∀ v : ℚ, s.usefulness_score = some v → 0 ≤ v ∧ v ≤ 100) ∧
  (∀ u ∈ db.users, 0 ≤ u.trust_score ∧ u.trust_score ≤ 100)

/-- Join rows of the "Get Suggestions for Disease" query before ordering:
`suggestions JOIN users ON users.id = suggestions.user_id WHERE disease_name = $1`. -/
def suggestionRows (db : DB) (disease : String) : List (Suggestion × User) :=
  (db.suggestions.filter (fun s => decide (s.disease_name = disease))).flatMap
    (fun s => (db.users.filter (fun u => decide (u.id = s.user_id))).map (fun u => (s, u)))

/-- Comparator of "Get Suggestions for Disease":
`ORDER BY usefulness_score DESC, positive_feedback_count DESC, users.trust_score DESC`
(the trust key is negated so that the plain order on ℚ runs descending). -/
def suggRankLe : Suggestion × User → Suggestion × User → Bool :=
  lex3Le (fun p => p.1.usefulness_score)
         (fun p => some p.1.positive_feedback_count)
         (fun p => -p.2.trust_score)

/-- The "Get Suggestions for Disease" query: join, filter by disease, order
by the three-key comparator, `LIMIT 10`. -/
def rankSuggestions (db : DB) (disease : String) : List (Suggestion × User) :=
  ((suggestionRows db disease).mergeSort suggRankLe).take 10

/-- The WHERE clause of "Get Community Posts with Filters": each filter is
skipped when its parameter is NULL; `crop_name ILIKE '%' || $2 || '%'` is
false on a NULL `crop_name`; `tags && $3` is array overlap. -/
def postMatches (resolvedF : Option Bool) (cropF : Option String)
    (tagsF : Option (List String)) (cp : CommunityPost) : Bool :=
  (match resolvedF with
   | none => true
   | some b => cp.is_resolved == b) &&
  (match cropF with
   | none => true
   | some c => match cp.crop_name with
     | none => false
     | some nm => ilikeContains nm c) &&
  (match tagsF with
   | none => true
   | some ts => cp.tags.any (fun t => ts.contains t))

/-- Join rows of "Get Community Posts with Filters" before ordering. -/
def postRows (db : DB) (resolvedF : Option Bool) (cropF : Option String)
    (tagsF : Option (List String)) : List (CommunityPost × User) :=
  (db.community_posts.filter (postMatches resolvedF cropF tagsF)).flatMap
    (fun cp => (db.users.filter (fun u => decide (u.id = cp.user_id))).map (fun u => (cp, u)))

/-- Comparator of "Get Community Posts with Filters":
`ORDER BY CASE WHEN $4 = 'popular' THEN response_count END DESC,
CASE WHEN $4 = 'trending' THEN view_count END DESC, created_at DESC`.
Each CASE key is NULL unless its sort mode is selected; `created_at` is
negated so the plain order runs descending. -/
def postSortLe (sort : String) : CommunityPost × User → CommunityPost × User → Bool :=
  lex3Le (fun p => if sort = "popular" then some p.1.response_count else none)
         (fun p => if sort = "trending" then some p.1.view_count else none)
         (fun p => -(p.1.created_at : ℤ))

/-- The "Get Community Posts with Filters" query: join, filter, order,
`LIMIT lim OFFSET off`. -/
def rankPosts (db : DB) (resolvedF : Option Bool) (cropF : Option String)
    (tagsF : Option (List String)) (sort : String) (lim off : Nat) :
    List (CommunityPost × User) :=
  (((postRows db resolvedF cropF tagsF).mergeSort (postSortLe sort)).drop off).take lim

/-- Order actually implemented by the `popular` sort: `response_count`
descending, ties by `created_at` descending (`view_count` plays no part). -/
def popLe (a b : CommunityPost × User) : Prop :=
  if a.1.response_count = b.1.response_count
  then b.1.created_at ≤ a.1.created_at
  else b.1.response_count < a.1.response_count

/-- First row of `suggestions` with the given id. -/
def getSuggestion (db : DB) (sid : Nat) : Option Suggestion :=
  db.suggestions.find? (fun s => decide (s.id = sid))

/-- First row of `users` with the given id. -/
def getUser (db : DB) (uid : Nat) : Option User :=
  db.users.find? (fun u => decide (u.id = uid))

/-- Example state: author (user 1) with trust 80, three raters (2,3,4), and
two fresh "rust" suggestions by the author, the older one (id 2) listed
second in the table. -/
def exDB : DB :=
  { users := [⟨1, 80, 0⟩, ⟨2, 50, 1⟩, ⟨3, 50, 2⟩, ⟨4, 50, 3⟩],
    suggestions := [⟨1, "rust", 1, some 50, 0, 0, 10⟩, ⟨2, "rust", 1, some 50, 0, 0, 5⟩],
    trust_feedback := [],
    community_posts := [],
    post_responses := [] }

/-- `exDB` after rater 2 submits score 5 on suggestion 1. -/
def exDB1 : DB := fbStep exDB ⟨2, 1, 1, 5⟩

/-- `exDB1` after rater 3 submits score 5 on suggestion 1. -/
def exDB2 : DB := fbStep exDB1 ⟨3, 1, 1, 5⟩

/-- `exDB2` after rater 4 submits score 5 on suggestion 1. -/
def exDB3 : DB := fbStep exDB2 ⟨4, 1, 1, 5⟩

/-- Example state for the trust-score recompute: farmer (user 2) with the
baseline trust 50, a rater (user 3), one suggestion authored by the farmer,
no feedback yet. -/
def c2db : DB :=
  { users := [⟨2, 50, 0⟩, ⟨3, 50, 1⟩],
    suggestions := [⟨1, "blight", 2, some 50, 0, 0, 0⟩],
    trust_feedback := [],
    community_posts := [],
    post_responses := [] }

/-- `c2db` after rater 3 submits score 5 on suggestion 1 (farmer 2). -/
def c2db1 : DB := fbStep c2db ⟨3, 1, 2, 5⟩

/-- Example state for post ranking: two posts tied on `response_count` (5),
post 1 with the higher `view_count` (10 vs 3) but the older `created_at`
(1 vs 2). -/
def postsDB : DB :=
  { users := [⟨1, 50, 0⟩],
    suggestions := [],
    trust_feedback := [],
    community_posts :=
      [⟨1, 1, some "Wheat", [], false, none, 10, 5, 1⟩,
       ⟨2, 1, some "Rice", [], false, none, 3, 5, 2⟩],
    post_responses := [] }

/-- Example state for the response counter: one post with no responses. -/
def respDB : DB :=
  { users := [⟨1, 50, 0⟩],
    suggestions := [],
    trust_feedback := [],
    community_posts := [⟨7, 1, none, [], false, none, 0, 0, 0⟩],
    post_responses := [] }

/-! ### Helper lemmas -/

theorem clampScore_nonneg (x : ℚ) : 0 ≤ clampScore x :=
  le_min (le_max_right x 0) (by norm_num)

theorem clampScore_le_100 (x : ℚ) : clampScore x ≤ 100 :=
  min_le_right _ _

theorem clampScore_eq_self {x : ℚ} (h0 : 0 ≤ x) (h1 : x ≤ 100) : clampScore x = x := by
  unfold clampScore
  rw [max_eq_left h0, min_eq_left h1]

theorem le_clampScore_of_le {x : ℚ} (h : 50 ≤ x) : 50 ≤ clampScore x := by
  unfold clampScore
  rw [max_eq_left (le_trans (by norm_num) h)]
  exact le_min h (by norm_num)

theorem optDescLt_ne {K : Type} [LinearOrder K] {x y : Option K}
    (h : optDescLt x y = true) : x ≠ y := by
  cases x <;> cases y <;> simp [optDescLt] at h ⊢
  exact ne_of_gt h

theorem optDescLt_trans {K : Type} [LinearOrder K] {x y z : Option K}
    (h1 : optDescLt x y = true) (h2 : optDescLt y z = true) : optDescLt x z = true := by
  cases x <;> cases y <;> cases z <;> simp_all [optDescLt]
  exact lt_trans h2 h1

theorem optDescLt_or_of_ne {K : Type} [LinearOrder K] {x y : Option K}
    (h : x ≠ y) : optDescLt x y = true ∨ optDescLt y x = true := by
  cases x with
  | none =>
    cases y with
    | none => exact absurd rfl h
    | some b => simp [optDescLt]
  | some a =>
    cases y with
    | none => simp [optDescLt]
    | some b =>
      have hab : a ≠ b := fun he => h (by rw [he])
      rcases lt_or_gt_of_ne hab with hlt | hgt
      · right; simp [optDescLt, hlt]
      · left; simp [optDescLt, hgt]

theorem lex3Le_trans {α K1 K2 K3 : Type} [LinearOrder K1] [LinearOrder K2] [LinearOrder K3]
    (f1 : α → Option K1) (f2 : α → Option K2) (f3 : α → K3) (a b c : α)
    (hab : lex3Le f1 f2 f3 a b = true) (hbc : lex3Le f1 f2 f3 b c = true) :
    lex3Le f1 f2 f3 a c = true := by
  unfold lex3Le at *
  by_cases e1ab : f1 a = f1 b <;> by_cases e1bc : f1 b = f1 c
  · have e1ac : f1 a = f1 c := e1ab.trans e1bc
    rw [if_pos e1ab] at hab; rw [if_pos e1bc] at hbc; rw [if_pos e1ac]
    by_cases e2ab : f2 a = f2 b <;> by_cases e2bc : f2 b = f2 c
    · have e2ac : f2 a = f2 c := e2ab.trans e2bc
      rw [if_pos e2ab] at hab; rw [if_pos e2bc] at hbc; rw [if_pos e2ac]
      simp only [decide_eq_true_eq] at hab hbc ⊢
      exact le_trans hab hbc
    · have e2ac : f2 a ≠ f2 c := fun h => e2bc (e2ab.symm.trans h)
      rw [if_neg e2bc] at hbc; rw [if_neg e2ac, e2ab]
      exact hbc
    · have e2ac : f2 a ≠ f2 c := fun h => e2ab (h.trans e2bc.symm)
      rw [if_neg e2ab] at hab; rw [if_neg e2ac, ← e2bc]
      exact hab
    · rw [if_neg e2ab] at hab; rw [if_neg e2bc] at hbc
      have ht := optDescLt_trans hab hbc
      rw [if_neg (optDescLt_ne ht)]
      exact ht
  · have e1ac : f1 a ≠ f1 c := fun h => e1bc (e1ab.symm.trans h)
    rw [if_neg e1bc] at hbc; rw [if_neg e1ac, e1ab]
    exact hbc
  · have e1ac : f1 a ≠ f1 c := fun h => e1ab (h.trans e1bc.symm)
    rw [if_neg e1ab] at hab; rw [if_neg e1ac, ← e1bc]
    exact hab
  · rw [if_neg e1ab] at hab; rw [if_neg e1bc] at hbc
    have ht := optDescLt_trans hab hbc
    rw [if_neg (optDescLt_ne ht)]
    exact ht

theorem lex3Le_total {α K1 K2 K3 : Type} [LinearOrder K1] [LinearOrder K2] [LinearOrder K3]
    (f1 : α → Option K1) (f2 : α → Option K2) (f3 : α → K3) (a b : α) :
    (lex3Le f1 f2 f3 a b || lex3Le f1 f2 f3 b a) = true := by
  unfold lex3Le
  by_cases e1 : f1 a = f1 b
  · rw [if_pos e1, if_pos e1.symm]
    by_cases e2 : f2 a = f2 b
    · rw [if_pos e2, if_pos e2.symm]
      simp only [Bool.or_eq_true, decide_eq_true_eq]
      exact le_total (f3 a) (f3 b)
    · rw [if_neg e2, if_neg (Ne.symm e2)]
      rcases optDescLt_or_of_ne e2 with h | h <;> simp [h]
  · rw [if_neg e1, if_neg (Ne.symm e1)]
    rcases optDescLt_or_of_ne e1 with h | h <;> simp [h]

theorem update_suggestion_usefulness_users (db : DB) (sid : Nat) :
    (update_suggestion_usefulness db sid).users = db.users := rfl

theorem update_suggestion_usefulness_trust_feedback (db : DB) (sid : Nat) :
    (update_suggestion_usefulness db sid).trust_feedback = db.trust_feedback := rfl

theorem update_suggestion_usefulness_community_posts (db : DB) (sid : Nat) :
    (update_suggestion_usefulness db sid).community_posts = db.community_posts := rfl

theorem update_suggestion_usefulness_post_responses (db : DB) (sid : Nat) :
    (update_suggestion_usefulness db sid).post_responses = db.post_responses := rfl

/-- Inversion of a successful `recordFeedback`: the score passed the CHECK
constraint, there was no duplicate `(rater, suggestion)` row, the suggestion
exists, and the result is the post-insert state reworked by the trigger. -/
theorem recordFeedback_ok_inv {db : DB} {r sid fid : Nat} {sc : ℤ} {db' : DB}
    (h : recordFeedback db r sid fid sc = .ok db') :
    (1 ≤ sc ∧ sc ≤ 5) ∧
    db.trust_feedback.any
      (fun f => decide (f.user_id = r) && decide (f.suggestion_id = sid)) = false ∧
    db.suggestions.any (fun s => decide (s.id = sid)) = true ∧
    db' = update_suggestion_usefulness
      { db with trust_feedback := db.trust_feedback ++ [⟨sid, r, fid, sc⟩] } sid := by
  unfold recordFeedback at h
  split_ifs at h with h1 h2 h3 h4
  have hb2 : db.trust_feedback.any
      (fun f => decide (f.user_id = r) && decide (f.suggestion_id = sid)) = false := by
    cases hB : db.trust_feedback.any
        (fun f => decide (f.user_id = r) && decide (f.suggestion_id = sid)) with
    | false => rfl
    | true => exact absurd hB h2
  refine ⟨h1, hb2, h3, ?_⟩
  exact (Except.ok.inj h).symm

/-- A successful `recordFeedback` appends exactly one row to `trust_feedback`. -/
theorem recordFeedback_ok_trust_feedback {db : DB} {r sid fid : Nat} {sc : ℤ} {db' : DB}
    (h : recordFeedback db r sid fid sc = .ok db') :
    db'.trust_feedback = db.trust_feedback ++ [⟨sid, r, fid, sc⟩] := by
  rw [(recordFeedback_ok_inv h).2.2.2, update_suggestion_usefulness_trust_feedback]

/-- `recordFeedback` never touches the `users` table. -/
theorem recordFeedback_ok_users {db : DB} {r sid fid : Nat} {sc : ℤ} {db' : DB}
    (h : recordFeedback db r sid fid sc = .ok db') : db'.users = db.users := by
  rw [(recordFeedback_ok_inv h).2.2.2, update_suggestion_usefulness_users]

/-- `feedbackFor` only reads the `trust_feedback` table. -/
theorem feedbackFor_congr {db db' : DB} (sid : Nat)
    (h : db'.trust_feedback = db.trust_feedback) :
    feedbackFor db' sid = feedbackFor db sid := by
  simp [feedbackFor, h]

/-- Appending a row for suggestion `sid` extends `feedbackFor` for `sid`
by that row. -/
theorem feedbackFor_append (db : DB) (sid r fid : Nat) (sc : ℤ) :
    feedbackFor { db with trust_feedback := db.trust_feedback ++ [⟨sid, r, fid, sc⟩] } sid
      = feedbackFor db sid ++ [⟨sid, r, fid, sc⟩] := by
  simp [feedbackFor, List.filter_append]

/-- Feedback history of a successful `recordFeedback`: the old history of the
suggestion plus the new row. -/
theorem recordFeedback_ok_feedbackFor {db : DB} {r sid fid : Nat} {sc : ℤ} {db' : DB}
    (h : recordFeedback db r sid fid sc = .ok db') :
    feedbackFor db' sid = feedbackFor db sid ++ [⟨sid, r, fid, sc⟩] := by
  rw [@feedbackFor_congr
      { db with trust_feedback := db.trust_feedback ++ [⟨sid, r, fid, sc⟩] } db' sid
      (by rw [recordFeedback_ok_trust_feedback h])]
  exact feedbackFor_append db sid r fid sc

/-- Effect of the trigger on the looked-up suggestion row. -/
theorem getSuggestion_update (db : DB) (sid : Nat) :
    getSuggestion (update_suggestion_usefulness db sid) sid =
      (getSuggestion db sid).map (fun s0 =>
        { s0 with
            usefulness_score :=
              ((avgQ ((feedbackFor db sid).map Feedback.score)).map
                (fun a => 50 + (a - 3) * 20)).map clampScore,
            positive_feedback_count :=
              (feedbackFor db sid).countP (fun f => decide (4 ≤ f.score)),
            negative_feedback_count :=
              (feedbackFor db sid).countP (fun f => decide (f.score ≤ 2)) }) := by
  unfold getSuggestion update_suggestion_usefulness
  simp only []
  rw [List.find?_map]
  have hpf : ((fun s : Suggestion => decide (s.id = sid)) ∘
      (fun s : Suggestion =>
        if s.id = sid then
          { s with
              usefulness_score :=
                ((avgQ ((feedbackFor db sid).map Feedback.score)).map
                  (fun a => 50 + (a - 3) * 20)).map clampScore,
              positive_feedback_count :=
                (feedbackFor db sid).countP (fun f => decide (4 ≤ f.score)),
              negative_feedback_count :=
                (feedbackFor db sid).countP (fun f => decide (f.score ≤ 2)) }
        else s)) = (fun s : Suggestion => decide (s.id = sid)) := by
    funext s
    by_cases hs : s.id = sid <;> simp [hs]
  rw [hpf]
  cases hfind : List.find? (fun s : Suggestion => decide (s.id = sid)) db.suggestions with
  | none => simp
  | some s0 =>
    have hp : s0.id = sid := by simpa using List.find?_some hfind
    simp [hp]

/-- Bounds on the exact mean of a nonempty list of integers in [lo, hi]. -/
theorem mean_bounds {l : List ℤ} {lo hi : ℤ} (hne : l ≠ [])
    (hb : ∀ x ∈ l, lo ≤ x ∧ x ≤ hi) :
    (lo : ℚ) ≤ (l.sum : ℚ) / (l.length : ℚ) ∧ (l.sum : ℚ) / (l.length : ℚ) ≤ (hi : ℚ) := by
  have hlen : 0 < l.length := List.length_pos.mpr hne
  have hlenQ : (0 : ℚ) < (l.length : ℚ) := by exact_mod_cast hlen
  have hlo : l.length • lo ≤ l.sum := List.card_nsmul_le_sum l lo (fun x hx => (hb x hx).1)
  have hhi : l.sum ≤ l.length • hi := List.sum_le_card_nsmul l hi (fun x hx => (hb x hx).2)
  rw [nsmul_eq_mul] at hlo hhi
  constructor
  · rw [le_div_iff₀ hlenQ]
    calc (lo : ℚ) * (l.length : ℚ) = ((l.length * lo : ℤ) : ℚ) := by push_cast; ring
    _ ≤ (l.sum : ℚ) := by exact_mod_cast hlo
  · rw [div_le_iff₀ hlenQ]
    calc (l.sum : ℚ) ≤ ((l.length * hi : ℤ) : ℚ) := by exact_mod_cast hhi
    _ = (hi : ℚ) * (l.length : ℚ) := by push_cast; ring

/-- Combined effect of a successful `recordFeedback` on the target
suggestion row: all three cached fields are recomputed from the full
post-insert feedback history. -/
theorem recordFeedback_ok_getSuggestion {db : DB} {r sid fid : Nat} {sc : ℤ} {db' : DB}
    (h : recordFeedback db r sid fid sc = .ok db') :
    ∃ s, getSuggestion db' sid = some s ∧
      s.usefulness_score =
        ((avgQ ((feedbackFor db' sid).map Feedback.score)).map
          (fun a => 50 + (a - 3) * 20)).map clampScore ∧
      s.positive_feedback_count =
        (feedbackFor db' sid).countP (fun f => decide (4 ≤ f.score)) ∧
      s.negative_feedback_count =
        (feedbackFor db' sid).countP (fun f => decide (f.score ≤ 2)) := by
  obtain ⟨hsc, hdup, hex, hdb⟩ := recordFeedback_ok_inv h
  have htf : feedbackFor db' sid = feedbackFor db sid ++ [⟨sid, r, fid, sc⟩] :=
    recordFeedback_ok_feedbackFor h
  have hfb1 : feedbackFor
      { db with trust_feedback := db.trust_feedback ++ [⟨sid, r, fid, sc⟩] } sid
      = feedbackFor db' sid := by
    rw [htf]; exact feedbackFor_append db sid r fid sc
  have hgs1 : getSuggestion
      { db with trust_feedback := db.trust_feedback ++ [⟨sid, r, fid, sc⟩] } sid
      = getSuggestion db sid := rfl
  obtain ⟨s0, hs0⟩ : ∃ s0, getSuggestion db sid = some s0 := by
    unfold getSuggestion
    exact Option.isSome_iff_exists.mp
      (List.find?_isSome.mpr (List.any_eq_true.mp hex))
  have hupd := getSuggestion_update
    { db with trust_feedback := db.trust_feedback ++ [⟨sid, r, fid, sc⟩] } sid
  rw [hfb1, hgs1, hs0, ← hdb] at hupd
  exact ⟨_, hupd, rfl, rfl, rfl⟩

/-! ### Claims -/

/-- C1: After `recordFeedback` persists a new Feedback row for a suggestion,
the suggestion's `usefulness_score` equals
`clamp(50 + (mean of all feedback scores ever recorded for that suggestion - 3) * 20, 0, 100)`,
recomputed from the full feedback history (the old history plus the new row)
rather than by incremental update. -/
theorem recordFeedback_usefulness_recomputed_from_history
    (db : DB) (r sid fid : Nat) (sc : ℤ) (db' : DB)
    (h : recordFeedback db r sid fid sc = .ok db') :
    feedbackFor db' sid = feedbackFor db sid ++ [⟨sid, r, fid, sc⟩] ∧
    ∃ s, getSuggestion db' sid = some s ∧
      s.usefulness_score = some (clampScore
        (50 + ((((feedbackFor db' sid).map Feedback.score).sum : ℚ)
          / (((feedbackFor db' sid).map Feedback.score).length : ℚ) - 3) * 20)) := by
  have htf : feedbackFor db' sid = feedbackFor db sid ++ [⟨sid, r, fid, sc⟩] :=
    recordFeedback_ok_feedbackFor h
  refine ⟨htf, ?_⟩
  obtain ⟨s, hs, hu, -, -⟩ := recordFeedback_ok_getSuggestion h
  refine ⟨s, hs, ?_⟩
  rw [hu]
  have hne : ((feedbackFor db' sid).map Feedback.score).isEmpty = false := by
    rw [htf]; simp
  simp [avgQ, hne]

/-- Witness for C1 at `exDB` with rater 2, suggestion 1, farmer 1, score 5. -/
theorem recordFeedback_usefulness_recomputed_from_history_witness :
    feedbackFor exDB1 1 = feedbackFor exDB 1 ++ [⟨1, 2, 1, 5⟩] ∧
    ∃ s, getSuggestion exDB1 1 = some s ∧
      s.usefulness_score = some (clampScore
        (50 + ((((feedbackFor exDB1 1).map Feedback.score).sum : ℚ)
          / (((feedbackFor exDB1 1).map Feedback.score).length : ℚ) - 3) * 20)) :=
  recordFeedback_usefulness_recomputed_from_history exDB 2 1 1 5 exDB1 rfl

/-- C2: the claim says every new Feedback insert recomputes the target
user's `trust_score`.  The schema's only trigger on `trust_feedback`
(`trigger_update_suggestion_usefulness`) updates the suggestion, and nothing
invokes `calculate_trust_score`: after farmer 2 (stored trust 50) receives a
score-5 feedback, the stored `trust_score` is still 50 even though
`calculate_trust_score` would now return
`clamp(50 + 0*10 + 5*5 + 0*3, 0, 100) = 75`. -/
theorem trust_score_not_recomputed_on_feedback_insert :
    recordFeedback c2db 3 1 2 5 = Except.ok c2db1 ∧
    (getUser c2db1 2).map User.trust_score = some 50 ∧
    calculate_trust_score c2db1 2 = 75 := by
  refine ⟨rfl, ?_, ?_⟩
  · have hu : c2db1.users = c2db.users :=
      @recordFeedback_ok_users c2db 3 1 2 5 c2db1 rfl
    rw [getUser, hu]
    rfl
  · have htf : c2db1.trust_feedback = [⟨1, 3, 2, 5⟩] := rfl
    have hcp : c2db1.community_posts = [] := rfl
    have hpr : c2db1.post_responses = [] := rfl
    unfold calculate_trust_score
    rw [htf, hcp, hpr]
    simp [avgQ]
    rw [show (50 : ℚ) + 5 * 5 = 75 from by norm_num]
    exact clampScore_eq_self (by norm_num) (by norm_num)

/-- Shared helper: three successful score-5 submissions on a suggestion that
starts with no feedback leave its `usefulness_score` at
`clamp(50 + (5 - 3) * 20, 0, 100) = 90`. -/
theorem fbChain555 {db d1 d2 d3 : DB} {sid r1 r2 r3 f1 f2 f3 : Nat}
    (h0 : feedbackFor db sid = [])
    (h1 : recordFeedback db r1 sid f1 5 = .ok d1)
    (h2 : recordFeedback d1 r2 sid f2 5 = .ok d2)
    (h3 : recordFeedback d2 r3 sid f3 5 = .ok d3) :
    ∃ s, getSuggestion d3 sid = some s ∧ s.usefulness_score = some 90 := by
  have ht3 : feedbackFor d3 sid =
      [⟨sid, r1, f1, 5⟩, ⟨sid, r2, f2, 5⟩, ⟨sid, r3, f3, 5⟩] := by
    rw [recordFeedback_ok_feedbackFor h3, recordFeedback_ok_feedbackFor h2,
        recordFeedback_ok_feedbackFor h1, h0]
    rfl
  obtain ⟨s, hs, hu, -, -⟩ := recordFeedback_ok_getSuggestion h3
  refine ⟨s, hs, ?_⟩
  rw [hu, ht3]
  simp [avgQ]
  norm_num [clampScore, max_def, min_def]

/-- C3 counterexample: submitting the scores {5,5,5} to the fresh
suggestion 1 of `exDB` succeeds three times and leaves `usefulness_score`
at 90, not at 100 as the claim states
(`50 + (5 - 3) * 20 = 90`, and 90 < 100 so the clamp does not fire). -/
theorem three_fives_usefulness_not_100 :
    recordFeedback exDB 2 1 1 5 = Except.ok exDB1 ∧
    recordFeedback exDB1 3 1 1 5 = Except.ok exDB2 ∧
    recordFeedback exDB2 4 1 1 5 = Except.ok exDB3 ∧
    feedbackFor exDB 1 = [] ∧
    (getSuggestion exDB3 1).map Suggestion.usefulness_score = some (some 90) ∧
    (getSuggestion exDB3 1).map Suggestion.usefulness_score ≠ some (some 100) := by
  obtain ⟨s, hs, hu⟩ := @fbChain555 exDB exDB1 exDB2 exDB3 1 2 3 4 1 1 1 rfl rfl rfl rfl
  refine ⟨rfl, rfl, rfl, rfl, ?_, ?_⟩
  · rw [hs]
    simp [hu]
  · rw [hs]
    simp [hu]

/-- C3 (amended): submitting the three feedback scores {5,5,5} to a fresh
suggestion (one with no prior feedback) results in a `usefulness_score` of
exactly 90. -/
theorem three_fives_usefulness_90 {db d1 d2 d3 : DB} {sid r1 r2 r3 f1 f2 f3 : Nat}
    (h0 : feedbackFor db sid = [])
    (h1 : recordFeedback db r1 sid f1 5 = .ok d1)
    (h2 : recordFeedback d1 r2 sid f2 5 = .ok d2)
    (h3 : recordFeedback d2 r3 sid f3 5 = .ok d3) :
    ∃ s, getSuggestion d3 sid = some s ∧ s.usefulness_score = some 90 :=
  fbChain555 h0 h1 h2 h3

/-- Witness for the amended C3 at `exDB` with raters 2, 3, 4. -/
theorem three_fives_usefulness_90_witness :
    ∃ s, getSuggestion exDB3 1 = some s ∧ s.usefulness_score = some 90 :=
  @three_fives_usefulness_90 exDB exDB1 exDB2 exDB3 1 2 3 4 1 1 1 rfl rfl rfl rfl

/-- One attempted feedback submission preserves the score ranges: a rejected
INSERT changes nothing, and a successful one writes only clamped values. -/
theorem fbStep_scoresInRange (db : DB) (c : FbCmd) (h : scoresInRange db) :
    scoresInRange (fbStep db c) := by
  unfold fbStep
  cases hrec : recordFeedback db c.raterId c.suggestionId c.farmerId c.score with
  | error e => exact h
  | ok db' =>
    obtain ⟨hsc, hdup, hex, hdb⟩ := recordFeedback_ok_inv hrec
    constructor
    · intro s hs v hv
      rw [hdb] at hs
      simp only [update_suggestion_usefulness, List.mem_map] at hs
      obtain ⟨s0, hs0, hfs0⟩ := hs
      by_cases hid : s0.id = c.suggestionId
      · rw [← hfs0] at hv
        simp only [if_pos hid] at hv
        obtain ⟨y, -, hyv⟩ := Option.map_eq_some'.mp (by simpa using hv)
        exact hyv ▸ ⟨clampScore_nonneg _, clampScore_le_100 _⟩
      · rw [← hfs0] at hv
        simp only [if_neg hid] at hv
        exact h.1 s0 hs0 v hv
    · intro u hu
      rw [recordFeedback_ok_users hrec] at hu
      exact h.2 u hu

/-- C4: for every sequence of attempted feedback submissions, every
suggestion's `usefulness_score` and every user's `trust_score` stay within
[0, 100] — in particular for all-1s and all-5s score sequences, and even
for invalid submissions, which are rejected without a write. -/
theorem fbRun_scores_within_bounds (cs : List FbCmd) (db : DB)
    (h : scoresInRange db) : scoresInRange (fbRun db cs) := by
  induction cs generalizing db with
  | nil => exact h
  | cons c cs ih => exact ih (fbStep db c) (fbStep_scoresInRange db c h)

/-- Witness for C4: the all-5s then all-1s submissions on `exDB`. -/
theorem fbRun_scores_within_bounds_witness :
    scoresInRange exDB ∧
    scoresInRange (fbRun exDB
      [⟨2, 1, 1, 5⟩, ⟨3, 1, 1, 5⟩, ⟨2, 2, 1, 1⟩, ⟨3, 2, 1, 1⟩]) := by
  have h : scoresInRange exDB := by norm_num [scoresInRange, exDB]
  exact ⟨h, fbRun_scores_within_bounds _ exDB h⟩

/-- C5: once a `(rater, suggestion)` pair has a Feedback row, a second
submission with any valid score is rejected with `DuplicateFeedback` by the
unique index `idx_trust_feedback_unique`, and the rejected step leaves the
database — feedback rows, scores and counts — exactly as it was after the
first call. -/
theorem duplicate_feedback_rejected (db db' : DB) (r sid fid fid2 : Nat) (sc sc2 : ℤ)
    (h1 : recordFeedback db r sid fid sc = .ok db')
    (h2 : 1 ≤ sc2 ∧ sc2 ≤ 5) :
    recordFeedback db' r sid fid2 sc2 = .error .DuplicateFeedback ∧
    fbStep db' ⟨r, sid, fid2, sc2⟩ = db' := by
  have hdup : db'.trust_feedback.any
      (fun f => decide (f.user_id = r) && decide (f.suggestion_id = sid)) = true := by
    rw [recordFeedback_ok_trust_feedback h1]
    simp
  have herr : recordFeedback db' r sid fid2 sc2 = .error .DuplicateFeedback := by
    unfold recordFeedback
    rw [if_neg (not_not.mpr h2), if_pos hdup]
  refine ⟨herr, ?_⟩
  unfold fbStep
  simp only []
  rw [herr]

/-- Witness for C5: after rater 2 scored suggestion 1 in `exDB`, the same
rater's second submission with score 3 is rejected. -/
theorem duplicate_feedback_rejected_witness :
    recordFeedback exDB1 2 1 1 3 = Except.error .DuplicateFeedback ∧
    fbStep exDB1 ⟨2, 1, 1, 3⟩ = exDB1 :=
  duplicate_feedback_rejected exDB exDB1 2 1 1 1 5 3 rfl (by decide)

theorem suggRankLe_trans : ∀ a b c, suggRankLe a b = true → suggRankLe b c = true →
    suggRankLe a c = true :=
  fun a b c => lex3Le_trans _ _ _ a b c

theorem suggRankLe_total : ∀ a b, (suggRankLe a b || suggRankLe b a) = true :=
  fun a b => lex3Le_total _ _ _ a b

theorem postSortLe_trans (sort : String) : ∀ a b c, postSortLe sort a b = true →
    postSortLe sort b c = true → postSortLe sort a c = true :=
  fun a b c => lex3Le_trans _ _ _ a b c

theorem postSortLe_total (sort : String) :
    ∀ a b, (postSortLe sort a b || postSortLe sort b a) = true :=
  fun a b => lex3Le_total _ _ _ a b

/-- Under `sort = 'popular'` the comparator reduces to `response_count`
descending with `created_at` descending as the only tie-break. -/
theorem postSortLe_popular_implies {a b : CommunityPost × User}
    (h : postSortLe "popular" a b = true) : popLe a b := by
  unfold postSortLe lex3Le at h
  simp only [String.reduceEq, reduceIte] at h
  unfold popLe
  by_cases hrc : a.1.response_count = b.1.response_count
  · rw [if_pos hrc]
    rw [if_pos (by rw [hrc])] at h
    simp only [decide_eq_true_eq, neg_le_neg_iff] at h
    exact_mod_cast h
  · rw [if_neg hrc]
    rw [if_neg (fun hh => hrc (Option.some.inj hh))] at h
    simpa [optDescLt] using h

/-- C6 counterexample: in `exDB` the two "rust" suggestions are tied on
`usefulness_score`, `positive_feedback_count` and author `trust_score`, yet
the query returns them in table order — suggestion with `created_at = 10`
first — not in creation-time ascending order, because the SQL `ORDER BY`
has no `created_at` key. -/
theorem rankSuggestions_no_created_at_tiebreak :
    (rankSuggestions exDB "rust").map (fun p => p.1.usefulness_score)
      = [some 50, some 50] ∧
    (rankSuggestions exDB "rust").map (fun p => p.1.positive_feedback_count) = [0, 0] ∧
    (rankSuggestions exDB "rust").map (fun p => p.2.trust_score) = [80, 80] ∧
    (rankSuggestions exDB "rust").map (fun p => p.1.created_at) = [10, 5] ∧
    ¬ (10 : Nat) ≤ 5 := by
  have hr : rankSuggestions exDB "rust" =
      [(⟨1, "rust", 1, some 50, 0, 0, 10⟩, ⟨1, 80, 0⟩),
       (⟨2, "rust", 1, some 50, 0, 0, 5⟩, ⟨1, 80, 0⟩)] := by
    simp [rankSuggestions, suggestionRows, exDB, List.mergeSort,
      suggRankLe, lex3Le, optDescLt]
  rw [hr]
  refine ⟨rfl, rfl, rfl, rfl, by norm_num⟩

/-- C6 (amended): `rankSuggestions(diseaseName)` returns at most the first
10 join rows for that disease, ordered descending by
`(usefulness_score, positive_feedback_count, author.trust_score)`; no
creation-time tie-break is applied, rows tied on all three keys stay in
table order. -/
theorem rankSuggestions_sorted_limited (db : DB) (d : String) :
    List.Pairwise (fun a b => suggRankLe a b = true) (rankSuggestions db d) ∧
    (rankSuggestions db d).length ≤ 10 ∧
    ∀ p ∈ rankSuggestions db d, p ∈ suggestionRows db d ∧ p.1.disease_name = d := by
  refine ⟨?_, ?_, ?_⟩
  · exact List.Pairwise.sublist (List.take_sublist _ _)
      (List.sorted_mergeSort suggRankLe_trans suggRankLe_total (suggestionRows db d))
  · rw [rankSuggestions, List.length_take]
    exact min_le_left _ _
  · intro p hp
    have hp2 : p ∈ suggestionRows db d :=
      List.mem_mergeSort.mp (List.mem_of_mem_take hp)
    refine ⟨hp2, ?_⟩
    obtain ⟨s, hsf, hpm⟩ := List.mem_flatMap.mp hp2
    obtain ⟨u, -, hpu⟩ := List.mem_map.mp hpm
    rw [← hpu]
    simpa using (List.mem_filter.mp hsf).2

/-- C7 counterexample: with `sort = 'popular'`, the two posts of `postsDB`
are tied on `response_count`, and the query orders them by `created_at`
descending — the post with the LOWER `view_count` (3) comes first — because
the `view_count` CASE key is NULL unless `sort = 'trending'`.  The claim's
`(response_count desc, view_count desc, created_at desc)` order would put
the `view_count = 10` post first. -/
theorem rankPosts_popular_ignores_view_count :
    (rankPosts postsDB none none none "popular" 10 0).map
      (fun p => p.1.response_count) = [5, 5] ∧
    (rankPosts postsDB none none none "popular" 10 0).map
      (fun p => p.1.view_count) = [3, 10] ∧
    ¬ (10 : Nat) ≤ 3 := by
  have hr : rankPosts postsDB none none none "popular" 10 0 =
      [(⟨2, 1, some "Rice", [], false, none, 3, 5, 2⟩, ⟨1, 50, 0⟩),
       (⟨1, 1, some "Wheat", [], false, none, 10, 5, 1⟩, ⟨1, 50, 0⟩)] := by
    simp [rankPosts, postRows, postsDB, postMatches, List.mergeSort,
      postSortLe, lex3Le, optDescLt]
  rw [hr]
  refine ⟨rfl, rfl, by norm_num⟩

/-- C7 (amended): `rankPosts` with `sort = 'popular'` orders the filtered
rows by `response_count` descending then `created_at` descending —
`view_count` is not consulted — and the filter predicates (resolved status,
crop substring, tag overlap) hold of every returned row, i.e. filtering
happens before sorting and before `LIMIT`/`OFFSET`. -/
theorem rankPosts_popular_sorted_filtered (db : DB) (rf : Option Bool)
    (cf : Option String) (tg : Option (List String)) (lim off : Nat) :
    List.Pairwise popLe (rankPosts db rf cf tg "popular" lim off) ∧
    ∀ p ∈ rankPosts db rf cf tg "popular" lim off,
      postMatches rf cf tg p.1 = true ∧ p.1 ∈ db.community_posts := by
  constructor
  · have hs := List.sorted_mergeSort (postSortLe_trans "popular")
      (postSortLe_total "popular") (postRows db rf cf tg)
    have hsub : (((postRows db rf cf tg).mergeSort
        (postSortLe "popular")).drop off).take lim |>.Sublist
        ((postRows db rf cf tg).mergeSort (postSortLe "popular")) :=
      (List.take_sublist _ _).trans (List.drop_sublist _ _)
    exact (List.Pairwise.sublist hsub hs).imp (fun h => postSortLe_popular_implies h)
  · intro p hp
    have hp2 : p ∈ postRows db rf cf tg :=
      List.mem_mergeSort.mp (List.mem_of_mem_drop (List.mem_of_mem_take hp))
    obtain ⟨cp, hcf, hpm⟩ := List.mem_flatMap.mp hp2
    obtain ⟨u, -, hpu⟩ := List.mem_map.mp hpm
    obtain ⟨hcp, hmt⟩ := List.mem_filter.mp hcf
    rw [← hpu]
    exact ⟨hmt, hcp⟩

/-- Counting with `p` splits across the partition induced by `q`. -/
theorem countP_partition {α : Type} (p q : α → Bool) (l : List α) :
    l.countP p = (l.filter q).countP p + (l.filter (fun x => !q x)).countP p := by
  induction l with
  | nil => simp
  | cons a l ih =>
    by_cases hq : q a <;> by_cases hp : p a <;>
      simp [List.countP_cons, List.filter_cons, hq, hp, ih] <;> omega

/-- The INSERT leg of `update_post_response_count` keeps every cached
`response_count` equal to the live count. -/
theorem insertResponse_consistent {db : DB} (r : PostResponse)
    (h : responseCountConsistent db) : responseCountConsistent (insertResponse db r) := by
  intro cp hcp
  simp only [insertResponse, List.mem_map] at hcp
  obtain ⟨cp0, hcp0, hf⟩ := hcp
  have hc := h cp0 hcp0
  by_cases hid : cp0.id = r.post_id
  · rw [← hf]
    simp only [insertResponse, if_pos hid, List.countP_append, List.countP_cons,
      List.countP_nil]
    have hpr : decide (r.post_id = cp0.id) = true := by simp [hid]
    rw [hpr, hc]
    simp [add_comm]
  · rw [← hf]
    simp only [insertResponse, if_neg hid, List.countP_append, List.countP_cons,
      List.countP_nil]
    have hpr : decide (r.post_id = cp0.id) = false := by
      simp
      exact fun hh => hid hh.symm
    rw [hpr, hc]
    simp

/-- The DELETE leg of `update_post_response_count` keeps every cached
`response_count` equal to the live count. -/
theorem deleteResponse_consistent {db : DB} (rid : Nat)
    (h : responseCountConsistent db) : responseCountConsistent (deleteResponse db rid) := by
  intro cp hcp
  simp only [deleteResponse, List.mem_map] at hcp
  obtain ⟨cp0, hcp0, hf⟩ := hcp
  have hc := h cp0 hcp0
  have hsplit := countP_partition (fun pr => decide (pr.post_id = cp0.id))
    (fun pr => decide (pr.id = rid)) db.post_responses
  rw [← hf]
  simp only [deleteResponse]
  omega

/-- C8: starting from any state where every post's cached `response_count`
equals its true number of responses, any sequence of response inserts and
deletes (each with its trigger) preserves that equality — the counter always
equals the live count. -/
theorem response_count_matches_responses (evs : List RespEvent) (db : DB)
    (h : responseCountConsistent db) : responseCountConsistent (applyRespEvents db evs) := by
  induction evs generalizing db with
  | nil => exact h
  | cons e evs ih =>
    cases e with
    | ins r => exact ih _ (insertResponse_consistent r h)
    | del rid => exact ih _ (deleteResponse_consistent rid h)

/-- Witness for C8: two inserts and one delete on the fresh post of
`respDB`. -/
theorem response_count_matches_responses_witness :
    responseCountConsistent respDB ∧
    responseCountConsistent (applyRespEvents respDB
      [.ins ⟨1, 7, 1, false⟩, .ins ⟨2, 7, 1, true⟩, .del 1]) := by
  have h : responseCountConsistent respDB := by
    intro cp hcp
    simp only [respDB, List.mem_singleton] at hcp
    subst hcp
    decide
  exact ⟨h, response_count_matches_responses _ respDB h⟩

/-- Baseline-plus-nonnegative-terms bound for the trust formula. -/
theorem trust_formula_ge (a v : Nat) (q : ℚ) (hq : 0 ≤ q) :
    (50 : ℚ) ≤ 50 + (a : ℚ) * 10 + q * 5 + (v : ℚ) * 3 := by
  have ha : (0 : ℚ) ≤ (a : ℚ) := Nat.cast_nonneg a
  have hv : (0 : ℚ) ≤ (v : ℚ) := Nat.cast_nonneg v
  linarith

/-- C9: with every stored feedback score in [1,5], every term of
`calculate_trust_score` beyond the base 50 is non-negative, so the computed
trust score never drops below the baseline 50 (the lower clamp to 0 is
unreachable; negative feedback cannot push a user below 50). -/
theorem trust_score_ge_baseline (db : DB) (uid : Nat)
    (h : ∀ f ∈ db.trust_feedback, 1 ≤ f.score ∧ f.score ≤ 5) :
    50 ≤ calculate_trust_score db uid := by
  have havg : (0 : ℚ) ≤ (avgQ ((db.trust_feedback.filter
      (fun f => decide (f.farmer_id = uid))).map Feedback.score)).getD 0 := by
    set l := (db.trust_feedback.filter
      (fun f => decide (f.farmer_id = uid))).map Feedback.score with hl
    unfold avgQ
    by_cases he : l.isEmpty
    · simp [he]
    · simp only [he, Bool.false_eq_true, if_false, Option.getD_some]
      apply div_nonneg
      · have hx : ∀ x ∈ l, (0 : ℤ) ≤ x := by
          intro x hx
          rw [hl] at hx
          obtain ⟨f, hf, hfx⟩ := List.mem_map.mp hx
          have h1 := (h f (List.mem_filter.mp hf).1).1
          rw [← hfx]
          linarith
        exact_mod_cast List.sum_nonneg hx
      · exact_mod_cast Nat.cast_nonneg l.length
  unfold calculate_trust_score
  apply le_clampScore_of_le
  exact trust_formula_ge _ _ _ havg

/-- Witness for C9 at `exDB1` (one score-5 feedback row), user 1. -/
theorem trust_score_ge_baseline_witness : 50 ≤ calculate_trust_score exDB1 1 :=
  trust_score_ge_baseline exDB1 1 (by decide)

/-- C10: when all stored scores are valid, after any successful
`recordFeedback` the recomputed `usefulness_score` lies in [10, 90]: the
mean is in [1,5], so `50 + (mean - 3) * 20` is in [10, 90] and the clamp
bounds 0 and 100 are never attained — in particular a `usefulness_score` of
100 is unreachable through feedback. -/
theorem usefulness_in_10_90_after_feedback (db : DB) (r sid fid : Nat) (sc : ℤ) (db' : DB)
    (hall : ∀ f ∈ db.trust_feedback, 1 ≤ f.score ∧ f.score ≤ 5)
    (h : recordFeedback db r sid fid sc = .ok db') :
    ∃ s, getSuggestion db' sid = some s ∧
      ∃ v, s.usefulness_score = some v ∧ 10 ≤ v ∧ v ≤ 90 := by
  obtain ⟨hsc, -, -, -⟩ := recordFeedback_ok_inv h
  obtain ⟨s, hs, hu, -, -⟩ := recordFeedback_ok_getSuggestion h
  have htf := recordFeedback_ok_feedbackFor h
  set l := (feedbackFor db' sid).map Feedback.score with hl
  have hne : l ≠ [] := by rw [hl, htf]; simp
  have hbnd : ∀ x ∈ l, (1 : ℤ) ≤ x ∧ x ≤ 5 := by
    intro x hx
    rw [hl] at hx
    obtain ⟨f, hf, hfx⟩ := List.mem_map.mp hx
    rw [htf] at hf
    rcases List.mem_append.mp hf with hf | hf
    · rw [← hfx]
      exact hall f (List.mem_filter.mp hf).1
    · simp only [List.mem_singleton] at hf
      rw [← hfx, hf]
      exact hsc
  obtain ⟨hm1, hm5⟩ := mean_bounds hne hbnd
  rw [show ((1 : ℤ) : ℚ) = 1 from by norm_num] at hm1
  rw [show ((5 : ℤ) : ℚ) = 5 from by norm_num] at hm5
  have hie : l.isEmpty = false := by
    cases hc : l with
    | nil => exact absurd hc hne
    | cons a t => rfl
  have hval : s.usefulness_score =
      some (clampScore (50 + ((l.sum : ℚ) / (l.length : ℚ) - 3) * 20)) := by
    rw [hu]
    simp [avgQ, hie]
  have hcl : clampScore (50 + ((l.sum : ℚ) / (l.length : ℚ) - 3) * 20)
      = 50 + ((l.sum : ℚ) / (l.length : ℚ) - 3) * 20 :=
    clampScore_eq_self (by linarith) (by linarith)
  refine ⟨s, hs, _, hval, ?_, ?_⟩
  · rw [hcl]; linarith
  · rw [hcl]; linarith

/-- Witness for C10 at `exDB` (no prior feedback) with rater 2, score 5. -/
theorem usefulness_in_10_90_after_feedback_witness :
    ∃ s, getSuggestion exDB1 1 = some s ∧
      ∃ v, s.usefulness_score = some v ∧ 10 ≤ v ∧ v ≤ 90 :=
  usefulness_in_10_90_after_feedback exDB 2 1 1 5 exDB1 (by decide) rfl

end KrishiLok
